import Mathlib

/-!
Verification of the market-opportunity-alert core logic (`logic.py`,
`state.py`, `config.py`).

The evaluation engine is embedded shallowly:
* prices and drawdowns are rationals (`ℚ`);
* a price series is the ordered list of closes (`List ℚ`);
* the persisted episode state is an association list from string keys
  (`str(level)`) to trigger records, in insertion order, mirroring a
  Python dict loaded from JSON;
* the market-data gateway is a pair of `Option ℚ` fetch results for the
  latest index/VIX close (`none` models the wrapped exception) together
  with a total function from lookback-period labels to series (the
  per-period `data_map`);
* the state file is a four-way datum: missing, contents failing JSON
  parsing or OS-level reading (caught, treated as empty state), contents
  whose bytes fail text decoding (`UnicodeDecodeError`, which the except
  clause at state.py line 20 does NOT catch, so it propagates), or a
  parsed mapping;
* a run returns the ordered list of `save_state` writes, the ordered list
  of `send_alert` payloads, the in-memory state at exit, and an optional
  uncaught Python exception name (`KeyError` from the emoji/zone dict
  lookups, `ValueError` from `min({})`, `UnicodeDecodeError` from loading
  an undecodable state file).
-/

namespace Market

/-- A persisted trigger record, mirroring the dict stored at
`state[level_key]` in `run_alerts` (logic.py lines 229-237). -/
structure TriggerRecord where
  triggered_at_price : ℚ
  drawdown : ℚ
  reference_period : String
  reference_peak : ℚ
  threshold_price : ℚ
  vix : ℚ
  confirmed_by : String
deriving DecidableEq

/-- The episode state: a `str(level)`-keyed mapping in insertion order. -/
abbrev StateMap := List (String × TriggerRecord)

/-- The structured content of the alert message assembled in
`run_alerts` (logic.py lines 178-225) and handed to `send_alert`. -/
structure Notification where
  testMode : Bool
  emoji : String
  level : ℕ
  price : ℚ
  period : String
  peak : ℚ
  drawdown : ℚ
  vix : ℚ
  threshold : ℚ
  pointsDown : ℚ
  persistenceText : String
  confirmation : String
  zone : String
  action : String
deriving DecidableEq

/-- The observable content of the state file read by `load_state`:
missing; contents raising `json.JSONDecodeError` or `OSError` (caught);
contents whose bytes raise `UnicodeDecodeError` while being read and
decoded (NOT caught); or a parsed mapping. -/
inductive FileContents where
  | missing
  | corrupt
  | undecodable
  | valid (st : StateMap)
deriving DecidableEq

/-- Model of `load_state` (state.py lines 12-23): a missing file and a
file whose contents raise `json.JSONDecodeError` or `OSError` both yield
the empty mapping, but a file whose bytes cannot be decoded raises
`UnicodeDecodeError`, which the except clause at state.py line 20 does
not list (it is a `ValueError`, a sibling of `JSONDecodeError`, not a
subclass), so the error propagates to the caller. -/
def load_state : FileContents → Except String StateMap
  | .missing => .ok []
  | .corrupt => .ok []
  | .undecodable => .error "UnicodeDecodeError"
  | .valid st => .ok st

/-- The observable effects of one `run_alerts` invocation. -/
structure RunResult where
  saves : List StateMap
  notifications : List Notification
  finalState : StateMap
  error : Option String
deriving DecidableEq

/-- Model of `close.max()` over a series; the 0 default is never consulted because
every use is guarded by an emptiness check. -/
def maxClose : List ℚ → ℚ
  | [] => 0
  | c :: rest => rest.foldl max c

/-- Model of `(index_price - peak) / peak * 100` (logic.py lines 122 and 149). -/
def drawdownPct (price peak : ℚ) : ℚ :=
  (price - peak) / peak * 100

/-- The drawdown actually used after the `forced_drawdown` override
(logic.py lines 122-124 and 149-151): the injected value replaces the
computed one whenever it is supplied. -/
def usedDrawdown (forced : Option ℚ) (price peak : ℚ) : ℚ :=
  match forced with
  | some v => v
  | none => drawdownPct price peak

/-- Python `round(x, 2)`: nearest multiple of 1/100, ties to even. -/
def round2 (x : ℚ) : ℚ :=
  let y := x * 100
  let f : ℤ := ⌊y⌋
  let r : ℚ := y - f
  let n : ℤ :=
    if r < 1/2 then f
    else if 1/2 < r then f + 1
    else if f % 2 = 0 then f else f + 1
  (n : ℚ) / 100

/-- Model of `consecutive_closes_below` (logic.py lines 33-41): take the last
`days` closes (`iloc[-days:]`), fail when fewer than `days` exist, and
otherwise require every one of them to be at or below the threshold. -/
def consecutive_closes_below (closes : List ℚ) (threshold : ℚ) (days : ℕ) : Bool :=
  if days = 0 then false
  else
    let cl := closes.drop (closes.length - days)
    if cl.length < days then false
    else cl.all (fun c => decide (c ≤ threshold))

/-- Model of `persistence_confirmed` (logic.py lines 162-166): a zero-day
requirement is trivially satisfied, otherwise defer to
`consecutive_closes_below`. -/
def persistenceConfirmed (closes : List ℚ) (threshold : ℚ) (days : ℕ) : Bool :=
  if days = 0 then true
  else consecutive_closes_below closes threshold days

/-- Model of `PERSISTENCE_DAYS.get(level, 0)` (logic.py lines 78-83, 161). -/
def PERSISTENCE_DAYS (level : ℕ) : ℕ :=
  if level = 5 then 0
  else if level = 10 then 1
  else if level = 15 then 2
  else if level = 20 then 0
  else 0

/-- The emoji dict looked up with `[level]` (logic.py line 178); `none`
models the `KeyError` raised for an unknown level. -/
def emojiMap (level : ℕ) : Option String :=
  if level = 5 then some "🟡"
  else if level = 10 then some "🟠"
  else if level = 15 then some "🔴"
  else if level = 20 then some "🔥"
  else none

/-- The zone-narrative dict looked up with `[level]` (logic.py lines
183-188); `none` models the `KeyError` raised for an unknown level. -/
def zoneMap (level : ℕ) : Option String :=
  if level = 5 then some "Mild correction zone. Usually no need for action beyond SIPs."
  else if level = 10 then some "Healthy correction. Good time to start deploying long-term money."
  else if level = 15 then some "Deep correction. Attractive zone for meaningful deployment."
  else if level = 20 then some "Panic zone. Historically rare levels – act according to plan, not emotions."
  else none

/-- Model of `threshold = peak * (1 - level / 100)` (logic.py line 157). -/
def thresholdPrice (peak : ℚ) (level : ℕ) : ℚ :=
  peak * (1 - (level : ℚ) / 100)

/-- The persistence confirmation computed for a level from its own
series, threshold price and persistence requirement. -/
def persistenceOK (fs : String → List ℚ) (level : ℕ) (per : String) : Bool :=
  persistenceConfirmed (fs per) (thresholdPrice (maxClose (fs per)) level) (PERSISTENCE_DAYS level)

/-- Model of `vix_price >= VIX_CONFIRMATION_THRESHOLD` with the threshold fixed at
20.0 (logic.py lines 75, 167). -/
def vixOK (vix : ℚ) : Bool :=
  decide (20 ≤ vix)

/-- The confirmation decision (logic.py lines 169-172): `force_confirm`
bypasses both checks, otherwise persistence OR volatility. -/
def confirmedFlag (fc pc vc : Bool) : Bool :=
  if fc then true else pc || vc

/-- Model of `confirmation_text` (logic.py lines 197-203). -/
def confirmationText (pc vc : Bool) : String :=
  if pc && vc then "PERSISTENCE + HIGH VIX"
  else if pc then "PERSISTENCE"
  else "HIGH VIX"

/-- Model of `persistence_text` (logic.py lines 192-196). -/
def persistenceText (days : ℕ) : String :=
  if days = 0 then "N/A (instant trigger at this level)"
  else toString days ++ " day(s) below threshold"

/-- One entry of `DEPLOYMENT_PLAN` (config.py lines 106-127). -/
structure Plan where
  title : String
  action : String
  allocation : Option String
deriving DecidableEq

/-- Model of `DEPLOYMENT_PLAN.get(level)` (config.py lines 106-127, logic.py
line 45). -/
def DEPLOYMENT_PLAN (level : ℕ) : Option Plan :=
  if level = 5 then
    some { title := "Observe only",
           action := "Continue SIPs. No lump-sum deployment.",
           allocation := none }
  else if level = 10 then
    some { title := "Small deployment",
           action := "Deploy small cash into Large Cap funds.",
           allocation := some "Large Cap focused" }
  else if level = 15 then
    some { title := "Meaningful deployment",
           action := "Deploy meaningful cash. Add Midcap exposure gradually.",
           allocation := some "70% Large Cap / 30% Midcap" }
  else if level = 20 then
    some { title := "Aggressive deployment",
           action := "Deploy aggressively following allocation plan.",
           allocation := some "50% Large / 35% Mid / 15% Small (optional)" }
  else none

/-- Model of `format_action` (logic.py lines 44-58): total, with a generic
fallback when no plan is configured for the level. -/
def format_action (level : ℕ) : String :=
  match DEPLOYMENT_PLAN level with
  | none => "➡️ Execute your pre-defined deployment plan."
  | some plan =>
    let lines := ["Suggested action: " ++ plan.title, plan.action] ++
      (match plan.allocation with
       | some a => ["Allocation hint: " ++ a]
       | none => [])
    "➡️ " ++ String.intercalate "\n➡️ " lines

/-- Model of `level_key in state`: membership of a key in the episode mapping. -/
def hasKey (st : StateMap) (k : String) : Bool :=
  st.any (fun e => decide (e.1 = k))

/-- Number of records stored under a given key. -/
def countKey (st : StateMap) (k : String) : ℕ :=
  st.countP (fun e => decide (e.1 = k))

/-- The alert payload assembled for a triggering level (logic.py lines
178-225), with the emoji and zone narrative passed in from the dict
lookups. -/
def mkNotification (price vix : ℚ) (forced : Option ℚ) (tm : Bool)
    (fs : String → List ℚ) (level : ℕ) (per : String) (em zn : String) : Notification :=
  let peak := maxClose (fs per)
  let dd := usedDrawdown forced price peak
  let thr := thresholdPrice peak level
  let pdays := PERSISTENCE_DAYS level
  { testMode := tm, emoji := em, level := level, price := price, period := per,
    peak := peak, drawdown := dd, vix := vix, threshold := thr,
    pointsDown := peak - price,
    persistenceText := persistenceText pdays,
    confirmation := confirmationText (persistenceOK fs level per) (vixOK vix),
    zone := zn, action := format_action level }

/-- The trigger record stored at `state[level_key]` (logic.py lines
229-237), with 2-decimal rounding of the numeric fields. -/
def mkRecord (price vix : ℚ) (forced : Option ℚ)
    (fs : String → List ℚ) (level : ℕ) (per : String) : TriggerRecord :=
  let peak := maxClose (fs per)
  let dd := usedDrawdown forced price peak
  let thr := thresholdPrice peak level
  { triggered_at_price := round2 price, drawdown := round2 dd,
    reference_period := per, reference_peak := round2 peak,
    threshold_price := round2 thr, vix := round2 vix,
    confirmed_by := confirmationText (persistenceOK fs level per) (vixOK vix) }

/-- One iteration of the level loop (logic.py lines 132-237), given the
current episode state. Returns `.ok none` when the level is skipped
(already triggered, empty series, non-positive peak, shallow drawdown,
unconfirmed), `.ok (some (payload, key, record))` on a trigger, and
`.error "KeyError"` when the emoji/zone dict lookup fails. -/
def evalLevel (price vix : ℚ) (forced : Option ℚ) (fc tm : Bool)
    (fs : String → List ℚ) (st : StateMap) (lp : ℕ × String) :
    Except String (Option (Notification × String × TriggerRecord)) :=
  if hasKey st (toString lp.1) then .ok none
  else if (fs lp.2).isEmpty then .ok none
  else if maxClose (fs lp.2) ≤ 0 then .ok none
  else if -(lp.1 : ℚ) < usedDrawdown forced price (maxClose (fs lp.2)) then .ok none
  else if confirmedFlag fc (persistenceOK fs lp.1 lp.2) (vixOK vix) = false then .ok none
  else
    match emojiMap lp.1, zoneMap lp.1 with
    | some em, some zn =>
        .ok (some (mkNotification price vix forced tm fs lp.1 lp.2 em zn,
                   toString lp.1,
                   mkRecord price vix forced fs lp.1 lp.2))
    | _, _ => .error "KeyError"

/-- The level loop: threading the state through the configured levels in
order, accumulating alert payloads, and recording a propagated exception
together with the state and payloads at the moment it is raised. -/
def evalLevels (price vix : ℚ) (forced : Option ℚ) (fc tm : Bool)
    (fs : String → List ℚ) :
    List (ℕ × String) → StateMap → List Notification →
    StateMap × List Notification × Option String
  | [], st, ns => (st, ns, none)
  | lp :: rest, st, ns =>
    match evalLevel price vix forced fc tm fs st lp with
    | .error e => (st, ns, some e)
    | .ok none => evalLevels price vix forced fc tm fs rest st ns
    | .ok (some (n, key, record)) =>
        evalLevels price vix forced fc tm fs rest (st ++ [(key, record)]) (ns ++ [n])

/-- Model of the reset reference lookback period `LEVELS[min(LEVELS)]`
(logic.py lines 114-115). -/
def resetPeriod (levels : List (ℕ × String)) : Option String :=
  match (levels.map Prod.fst).min? with
  | none => none
  | some rl => levels.lookup rl

/-- The episode reset controller (logic.py lines 110-129): using the
smallest level's series, when it is non-empty with positive peak and the
(possibly overridden) reset drawdown is above −3 with a non-empty state,
clear the state and write it immediately. Returns the state passed to
level evaluation and the list of `save_state` writes performed here. -/
def resetStage (price : ℚ) (forced : Option ℚ) (levels : List (ℕ × String))
    (fs : String → List ℚ) (st : StateMap) : StateMap × List StateMap :=
  match resetPeriod levels with
  | none => (st, [])
  | some rper =>
    if (fs rper).isEmpty then (st, [])
    else if 0 < maxClose (fs rper) then
      if -3 < usedDrawdown forced price (maxClose (fs rper)) ∧ st ≠ [] then
        ([], [[]])
      else (st, [])
    else (st, [])

/-- Model of `run_alerts` (logic.py lines 64-239): load state (an
uncaught load error propagates before anything else runs), fetch the two
latest closes (either failure aborts the run as a clean no-op), run the
reset controller, evaluate every configured level, and persist the final
state unless an exception escaped the loop. An empty level configuration
makes `min(LEVELS)` raise `ValueError`. -/
def run_alerts (levels : List (ℕ × String)) (fs : String → List ℚ)
    (indexFetch vixFetch : Option ℚ) (file : FileContents)
    (tm : Bool) (forced : Option ℚ) (fc : Bool) : RunResult :=
  match load_state file with
  | .error e =>
    { saves := [], notifications := [], finalState := [], error := some e }
  | .ok state0 =>
    match indexFetch, vixFetch with
    | some price, some vix =>
      if levels.isEmpty then
        { saves := [], notifications := [], finalState := state0, error := some "ValueError" }
      else
        let rs := resetStage price forced levels fs state0
        let ev := evalLevels price vix forced fc tm fs levels rs.1 []
        match ev.2.2 with
        | some e =>
            { saves := rs.2, notifications := ev.2.1, finalState := ev.1, error := some e }
        | none =>
            { saves := rs.2 ++ [ev.1], notifications := ev.2.1, finalState := ev.1,
              error := none }
    | _, _ => { saves := [], notifications := [], finalState := state0, error := none }

/-- The four levels for which the presentation dicts are total. -/
def goodLevel (level : ℕ) : Prop :=
  level = 5 ∨ level = 10 ∨ level = 15 ∨ level = 20

/-- The state-independent part of a level's trigger condition: non-empty
series, positive peak, drawdown at or below −level, and confirmation. -/
def levelFires (price vix : ℚ) (forced : Option ℚ) (fc : Bool)
    (fs : String → List ℚ) (level : ℕ) (per : String) : Prop :=
  (fs per).isEmpty = false ∧
  0 < maxClose (fs per) ∧
  usedDrawdown forced price (maxClose (fs per)) ≤ -(level : ℚ) ∧
  confirmedFlag fc (persistenceOK fs level per) (vixOK vix) = true

/-- Model of `LEVELS` as shipped (config.py lines 61-66). -/
def LEVELS : List (ℕ × String) :=
  [(5, "3mo"), (10, "6mo"), (15, "1y"), (20, "2y")]

/-- A concrete per-period data map: the 3mo series has recovered to
within 2% of its peak while the longer windows retain a higher peak. -/
def exampleFS : String → List ℚ :=
  fun per =>
    if per = "3mo" then [100, 98]
    else if per = "6mo" then [120, 98]
    else if per = "1y" then [120, 98]
    else if per = "2y" then [120, 98]
    else []

/-- A data map whose single-entry series sits above its own 10%
threshold, so persistence cannot confirm. -/
def flatFS : String → List ℚ :=
  fun _ => [100]

/-- Notifications attempted for a given level in a run. -/
def notifsFor (ns : List Notification) (level : ℕ) : List Notification :=
  ns.filter (fun n => decide (n.level = level))

/-- A data map for which every level is deeply underwater and the 3mo
reference has not recovered either. -/
def deepFS : String → List ℚ :=
  fun per =>
    if per = "3mo" then [100, 90]
    else if per = "6mo" then [120, 90]
    else if per = "1y" then [120, 90]
    else if per = "2y" then [120, 90]
    else []

/-- A data map whose every series consists of strictly negative closes. -/
def negFS : String → List ℚ :=
  fun _ => [-5, -1]

/-- An always-empty data map. -/
def emptyFS : String → List ℚ :=
  fun _ => []

/-- A sample trigger record used to populate example states. -/
def sampleRecord : TriggerRecord :=
  mkRecord 90 25 none deepFS 10 "6mo"

instance : DecidablePred goodLevel := by
  intro l
  unfold goodLevel
  infer_instance

instance (price vix : ℚ) (forced : Option ℚ) (fc : Bool)
    (fs : String → List ℚ) (level : ℕ) (per : String) :
    Decidable (levelFires price vix forced fc fs level per) := by
  unfold levelFires
  infer_instance

section Lemmas

variable (price vix : ℚ) (forced : Option ℚ) (fc tm : Bool) (fs : String → List ℚ)

theorem hasKey_append (st st2 : StateMap) (k : String) :
    hasKey (st ++ st2) k = (hasKey st k || hasKey st2 k) := by
  simp [hasKey, List.any_append]

theorem countKey_append (st st2 : StateMap) (k : String) :
    countKey (st ++ st2) k = countKey st k + countKey st2 k := by
  simp [countKey, List.countP_append]

theorem countKey_single (k1 k : String) (r : TriggerRecord) :
    countKey [(k1, r)] k = if k1 = k then 1 else 0 := by
  by_cases h : k1 = k <;> simp [countKey, List.countP_cons, h]

theorem hasKey_single (k1 k : String) (r : TriggerRecord) :
    hasKey [(k1, r)] k = decide (k1 = k) := by
  simp [hasKey]

theorem countKey_of_hasKey_false (st : StateMap) (k : String)
    (h : hasKey st k = false) : countKey st k = 0 := by
  induction st with
  | nil => rfl
  | cons e rest ih =>
    rw [hasKey, List.any_cons, Bool.or_eq_false_iff] at h
    have h1 : ¬ e.1 = k := by simpa using h.1
    have h2 : countKey rest k = 0 := ih (by simpa [hasKey] using h.2)
    rw [countKey, List.countP_cons]
    simpa [h1, countKey] using h2

theorem notifsFor_append (ns ns2 : List Notification) (level : ℕ) :
    notifsFor (ns ++ ns2) level = notifsFor ns level ++ notifsFor ns2 level := by
  simp [notifsFor, List.filter_append]

theorem notifsFor_single_ne (n : Notification) (level : ℕ) (h : n.level ≠ level) :
    notifsFor [n] level = [] := by
  simp [notifsFor, h]

theorem notifsFor_single_eq (n : Notification) (level : ℕ) (h : n.level = level) :
    notifsFor [n] level = [n] := by
  simp [notifsFor, h]

theorem goodKey_ne {a b : ℕ} (ha : goodLevel a) (hb : goodLevel b) (h : a ≠ b) :
    toString a ≠ toString b := by
  rcases ha with rfl | rfl | rfl | rfl <;> rcases hb with rfl | rfl | rfl | rfl <;>
    first
      | exact absurd rfl h
      | decide

theorem good_maps {l : ℕ} (hg : goodLevel l) :
    emojiMap l = some ((emojiMap l).getD "") ∧ zoneMap l = some ((zoneMap l).getD "") := by
  rcases hg with rfl | rfl | rfl | rfl <;> exact ⟨rfl, rfl⟩

theorem emojiMap_some_good {l : ℕ} {em : String} (h : emojiMap l = some em) :
    goodLevel l := by
  unfold emojiMap at h
  unfold goodLevel
  split_ifs at h with h5 h10 h15 h20
  · exact Or.inl h5
  · exact Or.inr (Or.inl h10)
  · exact Or.inr (Or.inr (Or.inl h15))
  · exact Or.inr (Or.inr (Or.inr h20))

theorem mkNotification_level (level : ℕ) (per : String) (em zn : String) :
    (mkNotification price vix forced tm fs level per em zn).level = level := rfl

theorem mkNotification_confirmation (level : ℕ) (per : String) (em zn : String) :
    (mkNotification price vix forced tm fs level per em zn).confirmation =
      confirmationText (persistenceOK fs level per) (vixOK vix) := rfl

theorem evalLevel_skip_of_mem (st : StateMap) (lp : ℕ × String)
    (h : hasKey st (toString lp.1) = true) :
    evalLevel price vix forced fc tm fs st lp = .ok none := by
  unfold evalLevel
  simp [h]

theorem evalLevel_skip_of_not_fires (st : StateMap) (lp : ℕ × String)
    (h1 : hasKey st (toString lp.1) = false)
    (h2 : ¬ levelFires price vix forced fc fs lp.1 lp.2) :
    evalLevel price vix forced fc tm fs st lp = .ok none := by
  unfold evalLevel
  rw [h1]
  by_cases he : (fs lp.2).isEmpty = true
  · simp [he]
  · by_cases hp : maxClose (fs lp.2) ≤ 0
    · simp [he, hp]
    · by_cases hd : -(lp.1 : ℚ) < usedDrawdown forced price (maxClose (fs lp.2))
      · simp [he, hp, hd]
      · by_cases hc : confirmedFlag fc (persistenceOK fs lp.1 lp.2) (vixOK vix) = false
        · simp [he, hp, hd, hc]
        · exfalso
          apply h2
          refine ⟨by simpa using he, lt_of_not_le hp, le_of_not_lt hd, by simpa using hc⟩

theorem evalLevel_fires (st : StateMap) (lp : ℕ × String)
    (h1 : hasKey st (toString lp.1) = false)
    (h2 : levelFires price vix forced fc fs lp.1 lp.2)
    {em zn : String} (hem : emojiMap lp.1 = some em) (hzn : zoneMap lp.1 = some zn) :
    evalLevel price vix forced fc tm fs st lp =
      .ok (some (mkNotification price vix forced tm fs lp.1 lp.2 em zn,
                 toString lp.1, mkRecord price vix forced fs lp.1 lp.2)) := by
  obtain ⟨h3, h4, h5, h6⟩ := h2
  unfold evalLevel
  rw [h1]
  simp [h3, not_le.mpr h4, not_lt.mpr h5, h6, hem, hzn]

theorem evalLevel_some_inv (st : StateMap) (lp : ℕ × String)
    {n : Notification} {k : String} {record : TriggerRecord}
    (h : evalLevel price vix forced fc tm fs st lp = .ok (some (n, k, record))) :
    hasKey st (toString lp.1) = false ∧
    levelFires price vix forced fc fs lp.1 lp.2 ∧
    goodLevel lp.1 ∧
    k = toString lp.1 ∧
    n = mkNotification price vix forced tm fs lp.1 lp.2
          ((emojiMap lp.1).getD "") ((zoneMap lp.1).getD "") ∧
    record = mkRecord price vix forced fs lp.1 lp.2 := by
  by_cases h1 : hasKey st (toString lp.1) = true
  · rw [evalLevel_skip_of_mem price vix forced fc tm fs st lp h1] at h
    simp at h
  · have h1f : hasKey st (toString lp.1) = false := by simpa using h1
    by_cases h2 : levelFires price vix forced fc fs lp.1 lp.2
    · cases hem : emojiMap lp.1 with
      | none =>
        obtain ⟨h3, h4, h5, h6⟩ := h2
        unfold evalLevel at h
        rw [h1f] at h
        simp [h3, not_le.mpr h4, not_lt.mpr h5, h6, hem] at h
      | some em =>
        cases hzn : zoneMap lp.1 with
        | none =>
          obtain ⟨h3, h4, h5, h6⟩ := h2
          unfold evalLevel at h
          rw [h1f] at h
          simp [h3, not_le.mpr h4, not_lt.mpr h5, h6, hem, hzn] at h
        | some zn =>
          rw [evalLevel_fires price vix forced fc tm fs st lp h1f h2 hem hzn] at h
          simp only [Except.ok.injEq, Option.some.injEq, Prod.mk.injEq] at h
          refine ⟨h1f, h2, emojiMap_some_good hem, h.2.1.symm, ?_, h.2.2.symm⟩
          rw [← h.1]
          simp
    · rw [evalLevel_skip_of_not_fires price vix forced fc tm fs st lp h1f h2] at h
      simp at h

theorem evalLevel_good_cases (st : StateMap) (lp : ℕ × String) (hg : goodLevel lp.1) :
    (hasKey st (toString lp.1) = true ∧
       evalLevel price vix forced fc tm fs st lp = .ok none) ∨
    (hasKey st (toString lp.1) = false ∧
       ¬ levelFires price vix forced fc fs lp.1 lp.2 ∧
       evalLevel price vix forced fc tm fs st lp = .ok none) ∨
    (hasKey st (toString lp.1) = false ∧
       levelFires price vix forced fc fs lp.1 lp.2 ∧
       evalLevel price vix forced fc tm fs st lp =
         .ok (some (mkNotification price vix forced tm fs lp.1 lp.2
                      ((emojiMap lp.1).getD "") ((zoneMap lp.1).getD ""),
                    toString lp.1, mkRecord price vix forced fs lp.1 lp.2))) := by
  by_cases h1 : hasKey st (toString lp.1) = true
  · exact Or.inl ⟨h1, evalLevel_skip_of_mem price vix forced fc tm fs st lp h1⟩
  · have h1f : hasKey st (toString lp.1) = false := by simpa using h1
    by_cases h2 : levelFires price vix forced fc fs lp.1 lp.2
    · obtain ⟨hem, hzn⟩ := good_maps hg
      exact Or.inr (Or.inr ⟨h1f, h2,
        evalLevel_fires price vix forced fc tm fs st lp h1f h2 hem hzn⟩)
    · exact Or.inr (Or.inl ⟨h1f, h2,
        evalLevel_skip_of_not_fires price vix forced fc tm fs st lp h1f h2⟩)

theorem evalLevels_mono (k : String) (ls : List (ℕ × String)) :
    ∀ (st : StateMap) (ns : List Notification), hasKey st k = true →
      hasKey (evalLevels price vix forced fc tm fs ls st ns).1 k = true := by
  induction ls with
  | nil => intro st ns h; simpa [evalLevels] using h
  | cons lp rest ih =>
    intro st ns h
    cases hE : evalLevel price vix forced fc tm fs st lp with
    | error e => simpa [evalLevels, hE] using h
    | ok r =>
      cases r with
      | none =>
        simp only [evalLevels, hE]
        exact ih st ns h
      | some t =>
        obtain ⟨n, key, record⟩ := t
        simp only [evalLevels, hE]
        exact ih _ _ (by rw [hasKey_append]; simp [h])

theorem evalLevels_no_error (ls : List (ℕ × String)) (hg : ∀ lp ∈ ls, goodLevel lp.1) :
    ∀ (st : StateMap) (ns : List Notification),
      (evalLevels price vix forced fc tm fs ls st ns).2.2 = none := by
  induction ls with
  | nil => intro st ns; simp [evalLevels]
  | cons lp rest ih =>
    intro st ns
    have hglp : goodLevel lp.1 := hg lp (List.mem_cons_self lp rest)
    have hgr : ∀ q ∈ rest, goodLevel q.1 := fun q hq => hg q (List.mem_cons_of_mem lp hq)
    rcases evalLevel_good_cases price vix forced fc tm fs st lp hglp with
      ⟨h1, hE⟩ | ⟨h1, h2, hE⟩ | ⟨h1, h2, hE⟩
    · simp only [evalLevels, hE]; exact ih hgr st ns
    · simp only [evalLevels, hE]; exact ih hgr st ns
    · simp only [evalLevels, hE]; exact ih hgr _ _

theorem evalLevels_frame (L : ℕ) (hgL : goodLevel L) (ls : List (ℕ × String))
    (hg : ∀ lp ∈ ls, goodLevel lp.1) (hne : ∀ lp ∈ ls, lp.1 ≠ L) :
    ∀ (st : StateMap) (ns : List Notification),
      (evalLevels price vix forced fc tm fs ls st ns).2.2 = none ∧
      countKey (evalLevels price vix forced fc tm fs ls st ns).1 (toString L) =
        countKey st (toString L) ∧
      notifsFor (evalLevels price vix forced fc tm fs ls st ns).2.1 L = notifsFor ns L := by
  induction ls with
  | nil => intro st ns; simp [evalLevels]
  | cons lp rest ih =>
    intro st ns
    have hglp : goodLevel lp.1 := hg lp (List.mem_cons_self lp rest)
    have hgr : ∀ q ∈ rest, goodLevel q.1 := fun q hq => hg q (List.mem_cons_of_mem lp hq)
    have hner : ∀ q ∈ rest, q.1 ≠ L := fun q hq => hne q (List.mem_cons_of_mem lp hq)
    have hlpL : lp.1 ≠ L := hne lp (List.mem_cons_self lp rest)
    rcases evalLevel_good_cases price vix forced fc tm fs st lp hglp with
      ⟨h1, hE⟩ | ⟨h1, h2, hE⟩ | ⟨h1, h2, hE⟩
    · simp only [evalLevels, hE]; exact ih hgr hner st ns
    · simp only [evalLevels, hE]; exact ih hgr hner st ns
    · simp only [evalLevels, hE]
      obtain ⟨e1, e2, e3⟩ := ih hgr hner
        (st ++ [(toString lp.1, mkRecord price vix forced fs lp.1 lp.2)])
        (ns ++ [mkNotification price vix forced tm fs lp.1 lp.2
                  ((emojiMap lp.1).getD "") ((zoneMap lp.1).getD "")])
      refine ⟨e1, ?_, ?_⟩
      · rw [e2, countKey_append, countKey_single]
        simp [goodKey_ne hglp hgL hlpL]
      · rw [e3, notifsFor_append, notifsFor_single_ne]
        · simp
        · simpa [mkNotification_level] using hlpL

theorem evalLevels_present (L : ℕ) (hgL : goodLevel L) (ls : List (ℕ × String))
    (hg : ∀ lp ∈ ls, goodLevel lp.1) :
    ∀ (st : StateMap) (ns : List Notification), hasKey st (toString L) = true →
      countKey (evalLevels price vix forced fc tm fs ls st ns).1 (toString L) =
        countKey st (toString L) ∧
      notifsFor (evalLevels price vix forced fc tm fs ls st ns).2.1 L = notifsFor ns L := by
  induction ls with
  | nil => intro st ns h; simp [evalLevels]
  | cons lp rest ih =>
    intro st ns h
    have hglp : goodLevel lp.1 := hg lp (List.mem_cons_self lp rest)
    have hgr : ∀ q ∈ rest, goodLevel q.1 := fun q hq => hg q (List.mem_cons_of_mem lp hq)
    rcases evalLevel_good_cases price vix forced fc tm fs st lp hglp with
      ⟨h1, hE⟩ | ⟨h1, h2, hE⟩ | ⟨h1, h2, hE⟩
    · simp only [evalLevels, hE]; exact ih hgr st ns h
    · simp only [evalLevels, hE]; exact ih hgr st ns h
    · have hlpL : lp.1 ≠ L := by
        intro hEq
        rw [hEq] at h1
        rw [h1] at h
        simp at h
      simp only [evalLevels, hE]
      obtain ⟨e2, e3⟩ := ih hgr
        (st ++ [(toString lp.1, mkRecord price vix forced fs lp.1 lp.2)])
        (ns ++ [mkNotification price vix forced tm fs lp.1 lp.2
                  ((emojiMap lp.1).getD "") ((zoneMap lp.1).getD "")])
        (by rw [hasKey_append]; simp [h])
      constructor
      · rw [e2, countKey_append, countKey_single]
        simp [goodKey_ne hglp hgL hlpL]
      · rw [e3, notifsFor_append, notifsFor_single_ne]
        · simp
        · simpa [mkNotification_level] using hlpL

theorem evalLevels_stable (ls : List (ℕ × String)) (hg : ∀ lp ∈ ls, goodLevel lp.1) :
    ∀ (st : StateMap) (ns : List Notification),
      (∀ lp ∈ ls, hasKey st (toString lp.1) = true ∨
         ¬ levelFires price vix forced fc fs lp.1 lp.2) →
      evalLevels price vix forced fc tm fs ls st ns = (st, ns, none) := by
  induction ls with
  | nil => intro st ns _; simp [evalLevels]
  | cons lp rest ih =>
    intro st ns hcond
    have hE : evalLevel price vix forced fc tm fs st lp = .ok none := by
      rcases hcond lp (List.mem_cons_self lp rest) with h1 | h2
      · exact evalLevel_skip_of_mem price vix forced fc tm fs st lp h1
      · by_cases h1 : hasKey st (toString lp.1) = true
        · exact evalLevel_skip_of_mem price vix forced fc tm fs st lp h1
        · exact evalLevel_skip_of_not_fires price vix forced fc tm fs st lp
            (by simpa using h1) h2
    have hgr : ∀ q ∈ rest, goodLevel q.1 := fun q hq => hg q (List.mem_cons_of_mem lp hq)
    simp only [evalLevels, hE]
    exact ih hgr st ns (fun q hq => hcond q (List.mem_cons_of_mem lp hq))

theorem evalLevels_final_char (ls : List (ℕ × String)) (hg : ∀ lp ∈ ls, goodLevel lp.1) :
    ∀ (st : StateMap) (ns : List Notification) (lp : ℕ × String), lp ∈ ls →
      hasKey (evalLevels price vix forced fc tm fs ls st ns).1 (toString lp.1) = true ∨
      ¬ levelFires price vix forced fc fs lp.1 lp.2 := by
  induction ls with
  | nil => intro st ns lp h; cases h
  | cons hd rest ih =>
    intro st ns lp hmem
    have hghd : goodLevel hd.1 := hg hd (List.mem_cons_self hd rest)
    have hgr : ∀ q ∈ rest, goodLevel q.1 := fun q hq => hg q (List.mem_cons_of_mem hd hq)
    rcases evalLevel_good_cases price vix forced fc tm fs st hd hghd with
      ⟨h1, hE⟩ | ⟨h1, h2, hE⟩ | ⟨h1, h2, hE⟩
    · rcases List.mem_cons.mp hmem with rfl | hmem2
      · left
        simp only [evalLevels, hE]
        exact evalLevels_mono price vix forced fc tm fs (toString lp.1) rest st ns h1
      · simp only [evalLevels, hE]
        exact ih hgr st ns lp hmem2
    · rcases List.mem_cons.mp hmem with rfl | hmem2
      · right; exact h2
      · simp only [evalLevels, hE]
        exact ih hgr st ns lp hmem2
    · rcases List.mem_cons.mp hmem with rfl | hmem2
      · left
        simp only [evalLevels, hE]
        apply evalLevels_mono
        rw [hasKey_append, hasKey_single]
        simp
      · simp only [evalLevels, hE]
        exact ih hgr _ _ lp hmem2

theorem evalLevels_hit (L : ℕ) (per : String) (hgL : goodLevel L)
    (ls : List (ℕ × String)) (hg : ∀ lp ∈ ls, goodLevel lp.1)
    (hnd : (ls.map Prod.fst).Nodup) (hmem : (L, per) ∈ ls) :
    ∀ (st : StateMap) (ns : List Notification),
      hasKey st (toString L) = false →
      levelFires price vix forced fc fs L per →
      (evalLevels price vix forced fc tm fs ls st ns).2.2 = none ∧
      countKey (evalLevels price vix forced fc tm fs ls st ns).1 (toString L) =
        countKey st (toString L) + 1 ∧
      notifsFor (evalLevels price vix forced fc tm fs ls st ns).2.1 L =
        notifsFor ns L ++
          [mkNotification price vix forced tm fs L per
             ((emojiMap L).getD "") ((zoneMap L).getD "")] := by
  induction ls with
  | nil => intro st ns _ _; cases hmem
  | cons hd rest ih =>
    intro st ns hkey hfires
    have hghd : goodLevel hd.1 := hg hd (List.mem_cons_self hd rest)
    have hgr : ∀ q ∈ rest, goodLevel q.1 := fun q hq => hg q (List.mem_cons_of_mem hd hq)
    have hndr : (rest.map Prod.fst).Nodup := (List.nodup_cons.mp (by simpa using hnd)).2
    have hdnotin : hd.1 ∉ rest.map Prod.fst := (List.nodup_cons.mp (by simpa using hnd)).1
    rcases List.mem_cons.mp hmem with heq | hmem2
    · subst heq
      obtain ⟨hem, hzn⟩ := good_maps hgL
      have hE := evalLevel_fires price vix forced fc tm fs st (L, per) hkey hfires hem hzn
      simp only [evalLevels, hE]
      have hner : ∀ q ∈ rest, q.1 ≠ L := by
        intro q hq hEq
        have hmm : q.1 ∈ rest.map Prod.fst := List.mem_map_of_mem Prod.fst hq
        rw [hEq] at hmm
        exact hdnotin hmm
      obtain ⟨e1, e2, e3⟩ := evalLevels_frame price vix forced fc tm fs L hgL rest hgr hner
        (st ++ [(toString L, mkRecord price vix forced fs L per)])
        (ns ++ [mkNotification price vix forced tm fs L per
                  ((emojiMap L).getD "") ((zoneMap L).getD "")])
      refine ⟨e1, ?_, ?_⟩
      · rw [e2, countKey_append, countKey_single]
        simp
      · rw [e3, notifsFor_append, notifsFor_single_eq]
        exact mkNotification_level price vix forced tm fs L per _ _
    · have hLin : L ∈ rest.map Prod.fst :=
        (List.mem_map_of_mem Prod.fst hmem2 : ((L, per).1 ∈ rest.map Prod.fst))
      have hhdL : hd.1 ≠ L := fun hEq => hdnotin (hEq ▸ hLin)
      rcases evalLevel_good_cases price vix forced fc tm fs st hd hghd with
        ⟨h1, hE⟩ | ⟨h1, h2, hE⟩ | ⟨h1, h2, hE⟩
      · simp only [evalLevels, hE]
        exact ih hgr hndr hmem2 st ns hkey hfires
      · simp only [evalLevels, hE]
        exact ih hgr hndr hmem2 st ns hkey hfires
      · simp only [evalLevels, hE]
        have hkey2 : hasKey
            (st ++ [(toString hd.1, mkRecord price vix forced fs hd.1 hd.2)])
            (toString L) = false := by
          rw [hasKey_append, hasKey_single]
          simp [hkey, goodKey_ne hghd hgL hhdL]
        obtain ⟨e1, e2, e3⟩ := ih hgr hndr hmem2 _ _ hkey2 hfires
        refine ⟨e1, ?_, ?_⟩
        · rw [e2, countKey_append, countKey_single]
          simp [goodKey_ne hghd hgL hhdL]
        · rw [e3, notifsFor_append, notifsFor_single_ne]
          · simp
          · simpa [mkNotification_level] using hhdL

theorem run_alerts_ok (levels : List (ℕ × String)) (file : FileContents)
    (state0 : StateMap) (hload : load_state file = .ok state0)
    (hne : levels ≠ [])
    (herr : (evalLevels price vix forced fc tm fs levels
        (resetStage price forced levels fs state0).1 []).2.2 = none) :
    run_alerts levels fs (some price) (some vix) file tm forced fc =
      { saves := (resetStage price forced levels fs state0).2 ++
          [(evalLevels price vix forced fc tm fs levels
              (resetStage price forced levels fs state0).1 []).1],
        notifications := (evalLevels price vix forced fc tm fs levels
            (resetStage price forced levels fs state0).1 []).2.1,
        finalState := (evalLevels price vix forced fc tm fs levels
            (resetStage price forced levels fs state0).1 []).1,
        error := none } := by
  have hempty : levels.isEmpty = false := by
    cases levels with
    | nil => exact absurd rfl hne
    | cons a l => rfl
  simp only [run_alerts, hload, hempty, Bool.false_eq_true, if_false]
  rw [herr]

end Lemmas

/-- C1: for a configured level L (distinct level keys, all levels known to
the presentation dicts) with no record in the state at the start of level
evaluation, if the drawdown used for L is at or below −L and confirmation
holds (persistence, volatility, or force-confirm — together
`levelFires`), then `run_alerts` stores exactly one trigger record keyed
by L and attempts exactly one notification for L in that run. -/
theorem C1_exactly_one_trigger
    (levels : List (ℕ × String)) (fs : String → List ℚ) (price vix : ℚ)
    (file : FileContents) (tm : Bool) (forced : Option ℚ) (fc : Bool)
    (L : ℕ) (per : String) (state0 : StateMap)
    (hload : load_state file = .ok state0)
    (hg : ∀ lp ∈ levels, goodLevel lp.1)
    (hnd : (levels.map Prod.fst).Nodup)
    (hmem : (L, per) ∈ levels)
    (hkey : hasKey (resetStage price forced levels fs state0).1 (toString L) = false)
    (hfires : levelFires price vix forced fc fs L per) :
    countKey (run_alerts levels fs (some price) (some vix) file tm forced fc).finalState
        (toString L) = 1 ∧
    (notifsFor (run_alerts levels fs (some price) (some vix) file tm forced fc).notifications
        L).length = 1 := by
  have hgL : goodLevel L := hg (L, per) hmem
  have hne : levels ≠ [] := List.ne_nil_of_mem hmem
  have herr := evalLevels_no_error price vix forced fc tm fs levels hg
    (resetStage price forced levels fs state0).1 []
  rw [run_alerts_ok price vix forced fc tm fs levels file state0 hload hne herr]
  obtain ⟨e1, e2, e3⟩ := evalLevels_hit price vix forced fc tm fs L per hgL levels hg hnd hmem
    (resetStage price forced levels fs state0).1 [] hkey hfires
  dsimp only
  constructor
  · rw [e2, countKey_of_hasKey_false _ _ hkey]
  · rw [e3]
    simp [notifsFor]

/-- C4: persistence confirmation with a requirement of N > 0 days holds
exactly when the series has at least N closes and the most recent N
closes all sit at or below the threshold price peak * (1 - level/100);
with fewer than N closes it is false even if every available close is
below the threshold (fail closed); a requirement of 0 days is trivially
satisfied. -/
theorem C4_persistence_fail_closed (series : List ℚ) (peak : ℚ) (L N : ℕ) :
    (0 < N → (persistenceConfirmed series (thresholdPrice peak L) N = true ↔
       N ≤ series.length ∧
       ∀ c ∈ series.drop (series.length - N), c ≤ thresholdPrice peak L)) ∧
    (series.length < N →
       persistenceConfirmed series (thresholdPrice peak L) N = false) ∧
    persistenceConfirmed series (thresholdPrice peak L) 0 = true := by
  have part1 : 0 < N → (persistenceConfirmed series (thresholdPrice peak L) N = true ↔
      N ≤ series.length ∧
      ∀ c ∈ series.drop (series.length - N), c ≤ thresholdPrice peak L) := by
    intro hN
    have hN0 : ¬ N = 0 := by omega
    unfold persistenceConfirmed consecutive_closes_below
    rw [if_neg hN0, if_neg hN0]
    by_cases hle : N ≤ series.length
    · have hlen : (series.drop (series.length - N)).length = N := by
        rw [List.length_drop]; omega
      rw [if_neg (by rw [hlen]; omega)]
      simp [List.all_eq_true, hle]
    · have hlen : (series.drop (series.length - N)).length = series.length := by
        rw [List.length_drop]; omega
      rw [if_pos (by rw [hlen]; omega)]
      simp [hle]
  refine ⟨part1, ?_, rfl⟩
  intro h
  have hN : 0 < N := by omega
  cases hpc : persistenceConfirmed series (thresholdPrice peak L) N with
  | false => rfl
  | true =>
    obtain ⟨hle, _⟩ := (part1 hN).mp hpc
    omega

/-- C5: when the state file loads, if fetching the latest index close or
the volatility reading from the market-data gateway raises, `run_alerts`
returns cleanly as a no-op: no state write, no notification, and no
escaping exception. -/
theorem C5_fetch_failure_noop
    (levels : List (ℕ × String)) (fs : String → List ℚ)
    (indexFetch vixFetch : Option ℚ) (file : FileContents)
    (tm : Bool) (forced : Option ℚ) (fc : Bool) (state0 : StateMap)
    (hload : load_state file = .ok state0)
    (h : indexFetch = none ∨ vixFetch = none) :
    run_alerts levels fs indexFetch vixFetch file tm forced fc =
      { saves := [], notifications := [], finalState := state0,
        error := none } := by
  rcases h with rfl | rfl
  · cases vixFetch <;> simp [run_alerts, hload]
  · cases indexFetch <;> simp [run_alerts, hload]

/-- C7: the claim holds for a missing file and for contents raising
`json.JSONDecodeError` or `OSError` — both load as the empty mapping and
the run proceeds exactly as on an explicitly empty state — but it fails
for a state file whose bytes cannot be decoded: `UnicodeDecodeError` is a
`ValueError`, not a subclass of `json.JSONDecodeError` or `OSError`, so
the except clause at state.py line 20 lets it propagate, against the
comment there ("Corrupt or unreadable state - start fresh") and the spec;
the run then aborts with the exception, with no save and no
notification, instead of proceeding on the empty state. -/
theorem C7_undecodable_crash :
    load_state .missing = .ok [] ∧
    load_state .corrupt = .ok [] ∧
    load_state .undecodable = .error "UnicodeDecodeError" ∧
    (run_alerts LEVELS exampleFS (some 98) (some 25) .undecodable
        false none false).error = some "UnicodeDecodeError" ∧
    (run_alerts LEVELS exampleFS (some 98) (some 25) .undecodable
        false none false).saves = [] ∧
    (run_alerts LEVELS exampleFS (some 98) (some 25) .undecodable
        false none false).notifications = [] ∧
    run_alerts LEVELS exampleFS (some 98) (some 25) .missing false none false =
      run_alerts LEVELS exampleFS (some 98) (some 25) (.valid []) false none false ∧
    run_alerts LEVELS exampleFS (some 98) (some 25) .corrupt false none false =
      run_alerts LEVELS exampleFS (some 98) (some 25) (.valid []) false none false :=
  ⟨rfl, rfl, rfl, rfl, rfl, rfl, rfl, rfl⟩

/-- C10: `run_alerts` is total only for levels 5/10/15/20: a configured
level 25 whose trigger condition is satisfied hits the emoji dict lookup,
which raises KeyError, so the run aborts with no alert sent and without
reaching the final state write (no save occurs at all here, since the
reset did not fire); by contrast the deployment-plan text lookup has a
documented generic fallback and stays total. -/
theorem C10_unknown_level_keyerror :
    ¬ goodLevel 25 ∧
    levelFires 70 15 none false (fun _ => [100, 70]) 25 "3mo" ∧
    (run_alerts [(25, "3mo")] (fun _ => [100, 70]) (some 70) (some 15)
        (.valid []) false none false).error = some "KeyError" ∧
    (run_alerts [(25, "3mo")] (fun _ => [100, 70]) (some 70) (some 15)
        (.valid []) false none false).notifications = [] ∧
    (run_alerts [(25, "3mo")] (fun _ => [100, 70]) (some 70) (some 15)
        (.valid []) false none false).saves = [] ∧
    format_action 25 = "➡️ Execute your pre-defined deployment plan." := by
  refine ⟨?_, ?_, ?_, ?_, ?_, ?_⟩ <;> with_unfolding_all decide

/-- C2 counterexample: with the shipped four-level configuration and data
in which the 3mo reference recovered to −2% while the 6mo and 1y peaks
remain ≥10%/15% above the price, a second `run_alerts` with unchanged
inputs and the state produced by the first run attempts two fresh
notifications: the reset controller clears the populated state and levels
10 and 15 fire again. -/
theorem C2_counterexample :
    (run_alerts LEVELS exampleFS (some 98) (some 25) (.valid [])
        false none false).finalState ≠ [] ∧
    (run_alerts LEVELS exampleFS (some 98) (some 25)
        (.valid (run_alerts LEVELS exampleFS (some 98) (some 25) (.valid [])
            false none false).finalState)
        false none false).notifications.length = 2 := by
  refine ⟨?_, ?_⟩ <;> with_unfolding_all decide

/-- C8 counterexample: under force-confirm with the volatility reading at
15 (below the 20 threshold) and persistence unsatisfied, a level-10
trigger still occurs and its payload confirmation label is the
high-volatility label even though the volatility path was not satisfied. -/
theorem C8_counterexample :
    (run_alerts [(10, "6mo")] flatFS (some 100) (some 15) (.valid [])
        false (some (-10)) true).notifications.map (fun n => n.confirmation) =
      ["HIGH VIX"] ∧
    vixOK 15 = false ∧
    persistenceOK flatFS 10 "6mo" = false := by
  refine ⟨?_, ?_, ?_⟩ <;> with_unfolding_all decide

/-- C3: before level evaluation, when the shortest-lookback reference
series is non-empty with positive peak and the (possibly injected) reset
drawdown is strictly above the −3 percent reset threshold while the
loaded state is non-empty, the reset stage clears the state entirely and
persists the cleared state immediately — the first write of the run is
the empty mapping; when the reference series is empty or its peak is
non-positive, no reset decision is made and the state is unchanged at
that point. -/
theorem C3_reset_clears_and_persists
    (price vix : ℚ) (forced : Option ℚ) (levels : List (ℕ × String))
    (fs : String → List ℚ) (file : FileContents) (tm fc : Bool)
    (rper : String) (state0 : StateMap)
    (hper : resetPeriod levels = some rper)
    (hload : load_state file = .ok state0) :
    ((fs rper).isEmpty = false → 0 < maxClose (fs rper) →
       -3 < usedDrawdown forced price (maxClose (fs rper)) →
       state0 ≠ [] →
       resetStage price forced levels fs state0 = ([], [[]]) ∧
       (run_alerts levels fs (some price) (some vix) file tm forced fc).saves.head? =
         some []) ∧
    ((fs rper).isEmpty = true ∨ maxClose (fs rper) ≤ 0 →
       resetStage price forced levels fs state0 = (state0, [])) := by
  have hne : levels ≠ [] := by
    intro h
    subst h
    simp [resetPeriod] at hper
  have hempty : levels.isEmpty = false := by
    cases levels with
    | nil => exact absurd rfl hne
    | cons a l => rfl
  constructor
  · intro h1 h2 h3 h4
    have hrs : resetStage price forced levels fs state0 = ([], [[]]) := by
      simp only [resetStage, hper]
      rw [h1]
      simp [h2, h3, h4]
    refine ⟨hrs, ?_⟩
    cases hE : (evalLevels price vix forced fc tm fs levels
        (resetStage price forced levels fs state0).1 []).2.2 with
    | none =>
      simp only [run_alerts, hload, hempty, Bool.false_eq_true, if_false]
      rw [hE]
      rw [hrs]
      rfl
    | some e =>
      simp only [run_alerts, hload, hempty, Bool.false_eq_true, if_false]
      rw [hE]
      rw [hrs]
      rfl
  · intro h
    simp only [resetStage, hper]
    rcases h with h | h
    · simp [h]
    · by_cases he : (fs rper).isEmpty = true
      · simp [he]
      · simp [he, not_lt.mpr h]

/-- C6: a level whose series has non-positive peak (including an empty
series) is skipped with no trigger; the reset controller makes no reset
decision when the reference peak is non-positive; and conversely a level
that produces output, or a reset stage that changes anything, is only
reached with a strictly positive peak, so the drawdown division never has
a zero divisor. -/
theorem C6_peak_guard
    (price vix : ℚ) (forced : Option ℚ) (fc tm : Bool)
    (fs : String → List ℚ) (levels : List (ℕ × String)) (st : StateMap) :
    (∀ (l : ℕ) (per : String), maxClose (fs per) ≤ 0 →
       evalLevel price vix forced fc tm fs st (l, per) = .ok none) ∧
    (∀ rper : String, resetPeriod levels = some rper → maxClose (fs rper) ≤ 0 →
       resetStage price forced levels fs st = (st, [])) ∧
    (∀ (lp : ℕ × String) (out : Notification × String × TriggerRecord),
       evalLevel price vix forced fc tm fs st lp = .ok (some out) →
       0 < maxClose (fs lp.2)) ∧
    (resetStage price forced levels fs st ≠ (st, []) →
       ∃ rper : String, resetPeriod levels = some rper ∧ 0 < maxClose (fs rper)) := by
  refine ⟨?_, ?_, ?_, ?_⟩
  · intro l per hpeak
    unfold evalLevel
    by_cases h1 : hasKey st (toString (l, per).1) = true
    · simp [h1]
    · by_cases he : ((fs (l, per).2).isEmpty : Bool) = true
      · simp [h1, he]
      · simp [h1, he, hpeak]
  · intro rper hper hpeak
    simp only [resetStage, hper]
    by_cases he : (fs rper).isEmpty = true
    · simp [he]
    · simp [he, not_lt.mpr hpeak]
  · intro lp out hE
    obtain ⟨n, k, record⟩ := out
    obtain ⟨_, hfires, _⟩ := evalLevel_some_inv price vix forced fc tm fs st lp hE
    exact hfires.2.1
  · intro hchange
    cases hper : resetPeriod levels with
    | none =>
      simp only [resetStage, hper] at hchange
      exact absurd rfl hchange
    | some rper =>
      simp only [resetStage, hper] at hchange
      by_cases he : (fs rper).isEmpty = true
      · rw [if_pos he] at hchange
        exact absurd rfl hchange
      · rw [if_neg he] at hchange
        by_cases hp : 0 < maxClose (fs rper)
        · exact ⟨rper, rfl, hp⟩
        · rw [if_neg hp] at hchange
          exact absurd rfl hchange

/-- C9: an injected forced drawdown short-circuits the computation in both
the level evaluator and the reset controller: the reset stage is entirely
independent of the current price, and whenever the guards pass, the reset
decision and each level's eligibility-and-record outcome depend on the
injected value v alone (reset clears iff −3 < v with non-empty state;
a level triggers iff v ≤ −level and confirmation holds, recording
drawdown v). -/
theorem C9_forced_override
    (v price price2 vix : ℚ) (fc tm : Bool)
    (levels : List (ℕ × String)) (fs : String → List ℚ) (st : StateMap) :
    (resetStage price (some v) levels fs st = resetStage price2 (some v) levels fs st) ∧
    (∀ rper : String, resetPeriod levels = some rper → (fs rper).isEmpty = false →
       0 < maxClose (fs rper) →
       (resetStage price (some v) levels fs st = ([], [[]]) ↔ -3 < v ∧ st ≠ [])) ∧
    (∀ (l : ℕ) (per : String), goodLevel l → hasKey st (toString l) = false →
       (fs per).isEmpty = false → 0 < maxClose (fs per) →
       ((∃ (n : Notification) (k : String) (record : TriggerRecord),
           evalLevel price vix (some v) fc tm fs st (l, per) = .ok (some (n, k, record)) ∧
           n.drawdown = v ∧ record.drawdown = round2 v)
         ↔ v ≤ -(l : ℚ) ∧
           confirmedFlag fc (persistenceOK fs l per) (vixOK vix) = true)) := by
  refine ⟨?_, ?_, ?_⟩
  · cases hper : resetPeriod levels with
    | none => simp [resetStage, hper]
    | some rper => simp [resetStage, hper, usedDrawdown]
  · intro rper hper h1 h2
    simp only [resetStage, hper]
    rw [h1]
    simp only [Bool.false_eq_true, if_false, if_pos h2]
    have hdd : usedDrawdown (some v) price (maxClose (fs rper)) = v := rfl
    rw [hdd]
    by_cases hc : -3 < v ∧ st ≠ []
    · simp [hc]
    · rw [if_neg hc]
      constructor
      · intro hEq
        exact absurd (congrArg Prod.snd hEq) (by simp)
      · intro hEq
        exact absurd hEq hc
  · intro l per hgl hk h1 h2
    constructor
    · rintro ⟨n, k, record, hE, hdd, hrec⟩
      obtain ⟨_, hfires, _, _, _, _⟩ :=
        evalLevel_some_inv price vix (some v) fc tm fs st (l, per) hE
      exact ⟨hfires.2.2.1, hfires.2.2.2⟩
    · rintro ⟨hv, hconf⟩
      obtain ⟨hem, hzn⟩ := good_maps hgl
      refine ⟨mkNotification price vix (some v) tm fs l per
                ((emojiMap l).getD "") ((zoneMap l).getD ""),
              toString l, mkRecord price vix (some v) fs l per,
              evalLevel_fires price vix (some v) fc tm fs st (l, per) hk
                ⟨h1, h2, hv, hconf⟩ hem hzn, rfl, rfl⟩

/-- C8 (amended): for any notification attempted for a triggered level L,
the confirmation label is the both-paths label exactly when persistence
and volatility are both satisfied, the persistence label exactly when
persistence alone is satisfied, and the high-volatility label exactly
when persistence is NOT satisfied — i.e. also when a force-confirmed
trigger had neither path satisfied, in which case the label wrongly
reports high volatility. -/
theorem C8_confirmation_label
    (levels : List (ℕ × String)) (fs : String → List ℚ) (price vix : ℚ)
    (file : FileContents) (tm : Bool) (forced : Option ℚ) (fc : Bool)
    (L : ℕ) (per : String) (state0 : StateMap)
    (hload : load_state file = .ok state0)
    (hg : ∀ lp ∈ levels, goodLevel lp.1)
    (hnd : (levels.map Prod.fst).Nodup)
    (hmem : (L, per) ∈ levels)
    (hkey : hasKey (resetStage price forced levels fs state0).1 (toString L) = false)
    (hfires : levelFires price vix forced fc fs L per) :
    ∀ n ∈ notifsFor
        (run_alerts levels fs (some price) (some vix) file tm forced fc).notifications L,
      (n.confirmation = "PERSISTENCE + HIGH VIX" ↔
         persistenceOK fs L per = true ∧ vixOK vix = true) ∧
      (n.confirmation = "PERSISTENCE" ↔
         persistenceOK fs L per = true ∧ vixOK vix = false) ∧
      (n.confirmation = "HIGH VIX" ↔ persistenceOK fs L per = false) := by
  have hgL : goodLevel L := hg (L, per) hmem
  have hne : levels ≠ [] := List.ne_nil_of_mem hmem
  have herr := evalLevels_no_error price vix forced fc tm fs levels hg
    (resetStage price forced levels fs state0).1 []
  rw [run_alerts_ok price vix forced fc tm fs levels file state0 hload hne herr]
  obtain ⟨e1, e2, e3⟩ := evalLevels_hit price vix forced fc tm fs L per hgL levels hg hnd hmem
    (resetStage price forced levels fs state0).1 [] hkey hfires
  dsimp only
  rw [e3]
  intro n hn
  have hnEq : n = mkNotification price vix forced tm fs L per
      ((emojiMap L).getD "") ((zoneMap L).getD "") := by
    simpa [notifsFor] using hn
  subst hnEq
  rw [mkNotification_confirmation]
  cases hpc : persistenceOK fs L per <;> cases hvc : vixOK vix <;>
    simp [confirmationText]

/-- C2 (amended): a level whose key is already present when levels are
evaluated is never re-recorded and never re-notified; and a second run
with unchanged inputs and the state produced by the first run yields no
new trigger records and no new notifications PROVIDED the reset
controller leaves that state unchanged on the second run — when the reset
condition holds instead (reset drawdown above −3 with non-empty state),
the second run clears the state first and levels may fire and notify
again. -/
theorem C2_skip_and_conditional_idempotence
    (levels : List (ℕ × String)) (fs : String → List ℚ) (price vix : ℚ)
    (file : FileContents) (tm : Bool) (forced : Option ℚ) (fc : Bool)
    (state0 : StateMap)
    (hload : load_state file = .ok state0)
    (hg : ∀ lp ∈ levels, goodLevel lp.1) :
    (∀ L : ℕ, goodLevel L →
       hasKey (resetStage price forced levels fs state0).1 (toString L) = true →
       countKey (run_alerts levels fs (some price) (some vix) file tm forced fc).finalState
           (toString L) =
         countKey (resetStage price forced levels fs state0).1 (toString L) ∧
       notifsFor
           (run_alerts levels fs (some price) (some vix) file tm forced fc).notifications
           L = []) ∧
    (resetStage price forced levels fs
        (run_alerts levels fs (some price) (some vix) file tm forced fc).finalState =
      ((run_alerts levels fs (some price) (some vix) file tm forced fc).finalState, []) →
     (run_alerts levels fs (some price) (some vix)
        (.valid (run_alerts levels fs (some price) (some vix) file tm forced fc).finalState)
        tm forced fc).notifications = [] ∧
     (run_alerts levels fs (some price) (some vix)
        (.valid (run_alerts levels fs (some price) (some vix) file tm forced fc).finalState)
        tm forced fc).finalState =
       (run_alerts levels fs (some price) (some vix) file tm forced fc).finalState) := by
  by_cases hne : levels = []
  · subst hne
    constructor
    · intro L _ _
      constructor
      · simp [run_alerts, hload, resetStage, resetPeriod]
      · simp [run_alerts, hload, notifsFor]
    · intro _
      constructor
      · simp [run_alerts, hload, load_state]
      · simp [run_alerts, hload, load_state]
  · have herr := evalLevels_no_error price vix forced fc tm fs levels hg
      (resetStage price forced levels fs state0).1 []
    have hrun := run_alerts_ok price vix forced fc tm fs levels file state0 hload hne herr
    constructor
    · intro L hgL hkey
      rw [hrun]
      dsimp only
      obtain ⟨e2, e3⟩ := evalLevels_present price vix forced fc tm fs L hgL levels hg
        (resetStage price forced levels fs state0).1 [] hkey
      exact ⟨e2, by rw [e3]; rfl⟩
    · intro hreset
      rw [hrun] at hreset ⊢
      dsimp only at hreset ⊢
      have hr1 : (resetStage price forced levels fs
          (evalLevels price vix forced fc tm fs levels
            (resetStage price forced levels fs state0).1 []).1).1 =
          (evalLevels price vix forced fc tm fs levels
            (resetStage price forced levels fs state0).1 []).1 := by
        rw [hreset]
      have hchar := evalLevels_final_char price vix forced fc tm fs levels hg
        (resetStage price forced levels fs state0).1 []
      have hstable := evalLevels_stable price vix forced fc tm fs levels hg
        (evalLevels price vix forced fc tm fs levels
          (resetStage price forced levels fs state0).1 []).1 []
        (fun lp hlp => hchar lp hlp)
      have herr2 : (evalLevels price vix forced fc tm fs levels
          (resetStage price forced levels fs
            (evalLevels price vix forced fc tm fs levels
              (resetStage price forced levels fs state0).1 []).1).1 []).2.2 = none := by
        rw [hr1, hstable]
      have hrun2 := run_alerts_ok price vix forced fc tm fs levels
        (.valid (evalLevels price vix forced fc tm fs levels
          (resetStage price forced levels fs state0).1 []).1)
        (evalLevels price vix forced fc tm fs levels
          (resetStage price forced levels fs state0).1 []).1
        rfl hne herr2
      rw [hrun2]
      dsimp only
      constructor
      · rw [hr1, hstable]
      · rw [hr1, hstable]

/-- C1 witness: level 10 of the shipped configuration with a forced −12%
drawdown triggers exactly once from an empty state. -/
theorem C1_witness :
    load_state (.valid []) = .ok [] ∧
    (∀ lp ∈ LEVELS, goodLevel lp.1) ∧
    (LEVELS.map Prod.fst).Nodup ∧
    ((10, "6mo") ∈ LEVELS) ∧
    hasKey (resetStage 98 (some (-12)) LEVELS exampleFS []).1
      (toString (10 : ℕ)) = false ∧
    levelFires 98 25 (some (-12)) false exampleFS 10 "6mo" ∧
    (countKey (run_alerts LEVELS exampleFS (some 98) (some 25) (.valid []) false
        (some (-12)) false).finalState (toString (10 : ℕ)) = 1 ∧
     (notifsFor (run_alerts LEVELS exampleFS (some 98) (some 25) (.valid []) false
        (some (-12)) false).notifications 10).length = 1) :=
  ⟨rfl,
   by with_unfolding_all decide, by with_unfolding_all decide, by with_unfolding_all decide,
   by with_unfolding_all decide, by with_unfolding_all decide,
   C1_exactly_one_trigger LEVELS exampleFS 98 25 (.valid []) false (some (-12)) false 10 "6mo"
     [] rfl
     (by with_unfolding_all decide) (by with_unfolding_all decide)
     (by with_unfolding_all decide) (by with_unfolding_all decide)
     (by with_unfolding_all decide)⟩

/-- C2 witness: an already-present level 10 is skipped with nothing new
recorded or notified, and a second run after a non-resetting first run is
a no-op on records and notifications. -/
theorem C2_witness :
    load_state (.valid [("10", sampleRecord)]) = .ok [("10", sampleRecord)] ∧
    (∀ lp ∈ LEVELS, goodLevel lp.1) ∧
    goodLevel 10 ∧
    hasKey (resetStage 90 none LEVELS deepFS
        [("10", sampleRecord)]).1 (toString (10 : ℕ)) = true ∧
    (countKey (run_alerts LEVELS deepFS (some 90) (some 25)
          (.valid [("10", sampleRecord)]) false none false).finalState (toString (10 : ℕ)) =
        countKey (resetStage 90 none LEVELS deepFS
          [("10", sampleRecord)]).1 (toString (10 : ℕ)) ∧
     notifsFor (run_alerts LEVELS deepFS (some 90) (some 25)
          (.valid [("10", sampleRecord)]) false none false).notifications 10 = []) ∧
    (resetStage 90 none LEVELS deepFS
        (run_alerts LEVELS deepFS (some 90) (some 25) (.valid []) false none false).finalState =
      ((run_alerts LEVELS deepFS (some 90) (some 25) (.valid []) false none false).finalState,
        []) ∧
     ((run_alerts LEVELS deepFS (some 90) (some 25)
          (.valid (run_alerts LEVELS deepFS (some 90) (some 25) (.valid [])
            false none false).finalState)
          false none false).notifications = [] ∧
      (run_alerts LEVELS deepFS (some 90) (some 25)
          (.valid (run_alerts LEVELS deepFS (some 90) (some 25) (.valid [])
            false none false).finalState)
          false none false).finalState =
        (run_alerts LEVELS deepFS (some 90) (some 25) (.valid []) false none false).finalState)) :=
  ⟨rfl,
   by with_unfolding_all decide, by with_unfolding_all decide, by with_unfolding_all decide,
   (C2_skip_and_conditional_idempotence LEVELS deepFS 90 25 (.valid [("10", sampleRecord)])
      false none false [("10", sampleRecord)] rfl (by with_unfolding_all decide)).1 10
      (by with_unfolding_all decide) (by with_unfolding_all decide),
   by with_unfolding_all decide,
   (C2_skip_and_conditional_idempotence LEVELS deepFS 90 25 (.valid []) false none false
      [] rfl (by with_unfolding_all decide)).2 (by with_unfolding_all decide)⟩

/-- C3 witness: with the 3mo reference recovered to −2% and a populated
state the reset clears and immediately persists the empty state; with an
empty reference series the state is left untouched. -/
theorem C3_witness :
    resetPeriod LEVELS = some "3mo" ∧
    load_state (.valid [("10", sampleRecord)]) = .ok [("10", sampleRecord)] ∧
    (exampleFS "3mo").isEmpty = false ∧
    0 < maxClose (exampleFS "3mo") ∧
    -3 < usedDrawdown none 98 (maxClose (exampleFS "3mo")) ∧
    ([("10", sampleRecord)] : StateMap) ≠ [] ∧
    (resetStage 98 none LEVELS exampleFS [("10", sampleRecord)] = ([], [[]]) ∧
     (run_alerts LEVELS exampleFS (some 98) (some 25) (.valid [("10", sampleRecord)])
        false none false).saves.head? = some []) ∧
    ((emptyFS "3mo").isEmpty = true ∨ maxClose (emptyFS "3mo") ≤ 0) ∧
    resetStage 98 none LEVELS emptyFS [("10", sampleRecord)] =
      ([("10", sampleRecord)], []) :=
  ⟨by with_unfolding_all decide, rfl,
   by with_unfolding_all decide, by with_unfolding_all decide,
   by with_unfolding_all decide, by with_unfolding_all decide,
   (C3_reset_clears_and_persists 98 25 none LEVELS exampleFS (.valid [("10", sampleRecord)])
      false false "3mo" [("10", sampleRecord)] (by with_unfolding_all decide) rfl).1
     (by with_unfolding_all decide) (by with_unfolding_all decide)
     (by with_unfolding_all decide) (by with_unfolding_all decide),
   by with_unfolding_all decide,
   (C3_reset_clears_and_persists 98 25 none LEVELS emptyFS (.valid [("10", sampleRecord)])
      false false "3mo" [("10", sampleRecord)] (by with_unfolding_all decide) rfl).2
     (by with_unfolding_all decide)⟩

/-- C4 witness: with peak 100 at level 10 (threshold 90), a two-close
series yields the characterizing equivalence for N = 2; a one-close
series below threshold still fails a two-day requirement; N = 0 is
trivially satisfied. -/
theorem C4_witness :
    (0 : ℕ) < 2 ∧
    (persistenceConfirmed [(95 : ℚ), 85] (thresholdPrice 100 10) 2 = true ↔
      2 ≤ ([(95 : ℚ), 85]).length ∧
      ∀ c ∈ ([(95 : ℚ), 85]).drop (([(95 : ℚ), 85]).length - 2),
        c ≤ thresholdPrice 100 10) ∧
    ([(85 : ℚ)]).length < 2 ∧
    persistenceConfirmed [(85 : ℚ)] (thresholdPrice 100 10) 2 = false ∧
    persistenceConfirmed [(95 : ℚ), 85] (thresholdPrice 100 10) 0 = true :=
  ⟨by decide,
   (C4_persistence_fail_closed [95, 85] 100 10 2).1 (by decide),
   by decide,
   (C4_persistence_fail_closed [85] 100 10 2).2.1 (by decide),
   (C4_persistence_fail_closed [95, 85] 100 10 0).2.2⟩

/-- C5 witness: a failed index-price fetch makes the run a clean no-op
even with a populated state. -/
theorem C5_witness :
    load_state (.valid [("10", sampleRecord)]) = .ok [("10", sampleRecord)] ∧
    ((none : Option ℚ) = none ∨ (some (25 : ℚ)) = none) ∧
    run_alerts LEVELS exampleFS none (some 25) (.valid [("10", sampleRecord)])
        false none false =
      { saves := [], notifications := [],
        finalState := [("10", sampleRecord)], error := none } :=
  ⟨rfl, Or.inl rfl,
   C5_fetch_failure_noop LEVELS exampleFS none (some 25) (.valid [("10", sampleRecord)])
     false none false [("10", sampleRecord)] rfl (Or.inl rfl)⟩

/-- C6 witness: a negative-peak series is skipped by the evaluator and
ignored by the reset controller; a triggering level and a state-changing
reset each certify a positive peak. -/
theorem C6_witness :
    maxClose (negFS "3mo") ≤ 0 ∧
    evalLevel 98 25 none false false negFS [] (10, "3mo") = .ok none ∧
    resetPeriod LEVELS = some "3mo" ∧
    resetStage 98 none LEVELS negFS [] = ([], []) ∧
    evalLevel 98 25 none false false exampleFS [] (10, "6mo") =
      .ok (some (mkNotification 98 25 none false exampleFS 10 "6mo"
            ((emojiMap 10).getD "") ((zoneMap 10).getD ""),
          toString (10 : ℕ), mkRecord 98 25 none exampleFS 10 "6mo")) ∧
    0 < maxClose (exampleFS "6mo") ∧
    resetStage 98 none LEVELS exampleFS [("10", sampleRecord)] ≠
      ([("10", sampleRecord)], []) ∧
    (∃ rper : String, resetPeriod LEVELS = some rper ∧ 0 < maxClose (exampleFS rper)) :=
  ⟨by with_unfolding_all decide,
   (C6_peak_guard 98 25 none false false negFS LEVELS []).1 10 "3mo"
     (by with_unfolding_all decide),
   by with_unfolding_all decide,
   (C6_peak_guard 98 25 none false false negFS LEVELS []).2.1 "3mo"
     (by with_unfolding_all decide) (by with_unfolding_all decide),
   by with_unfolding_all rfl,
   (C6_peak_guard 98 25 none false false exampleFS LEVELS []).2.2.1 (10, "6mo")
     (mkNotification 98 25 none false exampleFS 10 "6mo"
        ((emojiMap 10).getD "") ((zoneMap 10).getD ""),
      toString (10 : ℕ), mkRecord 98 25 none exampleFS 10 "6mo")
     (by with_unfolding_all rfl),
   by with_unfolding_all decide,
   (C6_peak_guard 98 25 none false false exampleFS LEVELS [("10", sampleRecord)]).2.2.2
     (by with_unfolding_all decide)⟩

/-- C8 witness: the label equivalences hold for the unique level-10
notification of a concrete triggering run. -/
theorem C8_witness :
    load_state (.valid []) = .ok [] ∧
    (∀ lp ∈ LEVELS, goodLevel lp.1) ∧
    (LEVELS.map Prod.fst).Nodup ∧
    ((10, "6mo") ∈ LEVELS) ∧
    hasKey (resetStage 98 none LEVELS exampleFS []).1
      (toString (10 : ℕ)) = false ∧
    levelFires 98 25 none false exampleFS 10 "6mo" ∧
    (∀ n ∈ notifsFor (run_alerts LEVELS exampleFS (some 98) (some 25) (.valid [])
          false none false).notifications 10,
       (n.confirmation = "PERSISTENCE + HIGH VIX" ↔
          persistenceOK exampleFS 10 "6mo" = true ∧ vixOK 25 = true) ∧
       (n.confirmation = "PERSISTENCE" ↔
          persistenceOK exampleFS 10 "6mo" = true ∧ vixOK 25 = false) ∧
       (n.confirmation = "HIGH VIX" ↔ persistenceOK exampleFS 10 "6mo" = false)) :=
  ⟨rfl,
   by with_unfolding_all decide, by with_unfolding_all decide, by with_unfolding_all decide,
   by with_unfolding_all decide, by with_unfolding_all decide,
   C8_confirmation_label LEVELS exampleFS 98 25 (.valid []) false none false 10 "6mo"
     [] rfl
     (by with_unfolding_all decide) (by with_unfolding_all decide)
     (by with_unfolding_all decide) (by with_unfolding_all decide)
     (by with_unfolding_all decide)⟩

/-- C9 witness: with an injected −12 the reset stage is price-independent
and its decision is characterized by −12 alone, and the level-15
eligibility equivalence is determined by −12 alone. -/
theorem C9_witness :
    (resetStage 98 (some (-12)) LEVELS exampleFS [("10", sampleRecord)] =
       resetStage 50 (some (-12)) LEVELS exampleFS [("10", sampleRecord)]) ∧
    resetPeriod LEVELS = some "3mo" ∧
    (exampleFS "3mo").isEmpty = false ∧
    0 < maxClose (exampleFS "3mo") ∧
    (resetStage 98 (some (-12)) LEVELS exampleFS [("10", sampleRecord)] = ([], [[]]) ↔
       -3 < (-12 : ℚ) ∧ ([("10", sampleRecord)] : StateMap) ≠ []) ∧
    goodLevel 15 ∧
    hasKey [("10", sampleRecord)] (toString (15 : ℕ)) = false ∧
    (exampleFS "1y").isEmpty = false ∧
    0 < maxClose (exampleFS "1y") ∧
    ((∃ (n : Notification) (k : String) (record : TriggerRecord),
        evalLevel 98 25 (some (-12)) false false exampleFS [("10", sampleRecord)]
            (15, "1y") = .ok (some (n, k, record)) ∧
        n.drawdown = -12 ∧ record.drawdown = round2 (-12))
      ↔ (-12 : ℚ) ≤ -((15 : ℕ) : ℚ) ∧
        confirmedFlag false (persistenceOK exampleFS 15 "1y") (vixOK 25) = true) :=
  ⟨(C9_forced_override (-12) 98 50 25 false false LEVELS exampleFS [("10", sampleRecord)]).1,
   by with_unfolding_all decide, by with_unfolding_all decide, by with_unfolding_all decide,
   (C9_forced_override (-12) 98 50 25 false false LEVELS exampleFS
      [("10", sampleRecord)]).2.1 "3mo" (by with_unfolding_all decide)
     (by with_unfolding_all decide) (by with_unfolding_all decide),
   by with_unfolding_all decide, by with_unfolding_all decide,
   by with_unfolding_all decide, by with_unfolding_all decide,
   (C9_forced_override (-12) 98 50 25 false false LEVELS exampleFS
      [("10", sampleRecord)]).2.2 15 "1y" (by with_unfolding_all decide)
     (by with_unfolding_all decide) (by with_unfolding_all decide)
     (by with_unfolding_all decide)⟩

end Market
